import Mathlib

/-!
Shallow embedding of the NumberGame arithmetic-practice application
(`src/services/mathEngine.ts`, `src/App.tsx`, `constants` module) and
proofs about its spaced-repetition scheduler, question generator, progress
reducer and stage outcome evaluator.

Modelling conventions:
* JS numbers that always hold integers are `Int` (operands, timestamps,
  milliseconds) or `Nat` (counters, xp, levels, streaks).
* `Math.random()` results are modelled as explicit rational parameters
  `r` with the hypothesis `0 ≤ r < 1`; `Math.floor` on such values is
  `Int.floor` on `ℚ`.  Real-valued (rather than IEEE-754) semantics is
  used for the arithmetic on these draws.
* `Date.now()` and the current calendar-date string are explicit
  parameters (`now : Int`, `today : String`).
* Fallible lookups (`array[i]` that may be `undefined`) are `Option`, or
  a `getD` whose default corresponds to the code's own `||` fallback.
* `Array.findIndex` is modelled by `findIdxBool` below (`none` is the
  JS `-1` result); `Array.splice(i, 1)` is `List.eraseIdx`.
-/

namespace NumberGame

/-- The four arithmetic operators of `types.ts` (`Operator`). -/
inductive Operator where
  | add
  | sub
  | mul
  | div
deriving DecidableEq, Repr

/-- `Question` from `types.ts`, as used throughout `App.tsx` and
`mathEngine.ts`: an id, two operands, an operator, the expected answer and
the `isReview` / `isBoss` flags.  The optional `bossText` field plays no
role in any modelled computation and is omitted. -/
structure Question where
  id : String
  num1 : Int
  num2 : Int
  operator : Operator
  answer : Int
  isReview : Bool
  isBoss : Bool
deriving DecidableEq, Repr

/-- `MistakeRecord` from `types.ts`: a question snapshot, the learner's
wrong answer, timestamps and the spaced-repetition bookkeeping. -/
structure MistakeRecord where
  question : Question
  userAnswer : Int
  timestamp : Int
  reviewCount : Nat
  nextReviewTime : Int
  proficiency : Nat
deriving DecidableEq, Repr

/-- The interval ladder of `calculateNextReview`
(`src/services/mathEngine.ts` lines 28-34): 5 min, 30 min, 4 h, 24 h, 3 d,
in milliseconds. -/
def srsIntervals : List Int :=
  [5 * 60 * 1000, 30 * 60 * 1000, 4 * 60 * 60 * 1000,
   24 * 60 * 60 * 1000, 3 * 24 * 60 * 60 * 1000]

/-- Scheduler `calculateNextReview` (`src/services/mathEngine.ts` lines 4-46).
`Date.now()` is passed explicitly as `now`.  The JS
`intervals[...] || intervals[0]` out-of-bounds fallback is the `getD`
default (every in-bounds entry is nonzero, so `||` only fires on
`undefined`).  Returning `none` models the `null` "mastered" signal.
`record.proficiency || 0` is the identity here because `proficiency`
is always a number in this model. -/
def calculateNextReview (record : MistakeRecord) (isCorrect : Bool)
    (now : Int) : Option MistakeRecord :=
  let currentProf := record.proficiency
  if !isCorrect then
    some { record with
      reviewCount := record.reviewCount + 1
      proficiency := 0
      nextReviewTime := now + 60 * 1000
      timestamp := now }
  else
    let newProf := currentProf + 1
    if newProf ≥ 5 then
      none
    else
      let interval :=
        srsIntervals.getD (min (newProf - 1) (srsIntervals.length - 1))
          (5 * 60 * 1000)
      some { record with
        reviewCount := record.reviewCount + 1
        proficiency := newProf
        nextReviewTime := now + interval
        timestamp := now }

/-- Repeated application of `calculateNextReview` with `isCorrect = true`,
each call at clock `ts k`; `none` is absorbing (once mastered, no record
remains to advance). -/
def advanceCorrectIter (ts : Nat → Int) (r : MistakeRecord) :
    Nat → Option MistakeRecord
  | 0 => some r
  | n + 1 =>
      (advanceCorrectIter ts r n).bind fun x => calculateNextReview x true (ts n)

/-- Difficulty `StageConfig` (`src/services/mathEngine.ts` lines 172-178); the
`description` and `multiStep` fields play no role in generation and are
omitted. -/
structure StageConfig where
  min : Int
  max : Int
  operators : List Operator
deriving DecidableEq, Repr

/-- Stage difficulty table `getStageConfig` (`src/services/mathEngine.ts` lines 180-211). -/
def getStageConfig (stage : Nat) : StageConfig :=
  if stage ≤ 10 then
    ⟨10, 200, [Operator.add, Operator.sub, Operator.mul, Operator.div]⟩
  else if stage ≤ 30 then
    ⟨50, 500, [Operator.add, Operator.sub, Operator.mul, Operator.div]⟩
  else if stage ≤ 60 then
    ⟨100, 800, [Operator.add, Operator.sub, Operator.mul, Operator.div]⟩
  else
    ⟨200, 1000, [Operator.add, Operator.sub, Operator.mul, Operator.div]⟩

/-- The operator-set fallback of both generators
(`validOperators = operators.length > 0 ? operators : [Operator.ADD]`,
`src/services/mathEngine.ts` lines 77 and 238). -/
def validOperators (ops : List Operator) : List Operator :=
  if ops.isEmpty then [Operator.add] else ops

/-- The operand-synthesis `switch` of the updated generator
(`src/services/mathEngine.ts` lines 242-277), for an already-chosen
operator.  `r1`, `r2` are the two `Math.random()` draws of the branch;
`0.7` is the rational `7/10`. -/
def synthesize (config : StageConfig) (op : Operator) (r1 r2 : ℚ)
    (newId : String) : Question :=
  match op with
  | Operator.add =>
      let num1 := ⌊r1 * ((7 : ℚ) / 10 * (config.max : ℚ) - (config.min : ℚ))⌋ +
        config.min
      let num2 := ⌊r2 * ((config.max : ℚ) - (num1 : ℚ) - 10)⌋ + 10
      ⟨newId, num1, num2, Operator.add, num1 + num2, false, false⟩
  | Operator.sub =>
      let num1 := ⌊r1 * ((config.max : ℚ) - (config.min : ℚ))⌋ + config.min
      let num2 := ⌊r2 * ((num1 : ℚ) - 5)⌋ + 5
      ⟨newId, num1, num2, Operator.sub, num1 - num2, false, false⟩
  | Operator.mul =>
      if config.max < 300 then
        let num1 := ⌊r1 * (50 : ℚ)⌋ + 11
        let num2 := ⌊r2 * (8 : ℚ)⌋ + 2
        ⟨newId, num1, num2, Operator.mul, num1 * num2, false, false⟩
      else
        let num1 := ⌊r1 * (80 : ℚ)⌋ + 12
        let num2 := ⌊r2 * (11 : ℚ)⌋ + 3
        ⟨newId, num1, num2, Operator.mul, num1 * num2, false, false⟩
  | Operator.div =>
      let divisor := ⌊r1 * (8 : ℚ)⌋ + 2
      let quotient := ⌊r2 * ((config.max : ℚ) / 10)⌋ + 11
      ⟨newId, quotient * divisor, divisor, Operator.div, quotient, false, false⟩

/-- Operator choice plus synthesis: the fresh-question path of the updated
`generateQuestion` (`src/services/mathEngine.ts` lines 238-279).
`operator = validOperators[Math.floor(Math.random() * length)]`; the `getD`
default corresponds to the out-of-range index never produced by an
in-range draw. -/
def generateQuestionCore (config : StageConfig) (r0 r1 r2 : ℚ)
    (newId : String) : Question :=
  let vops := validOperators config.operators
  synthesize config (vops.getD (⌊r0 * (vops.length : ℚ)⌋).toNat Operator.add)
    r1 r2 newId

/-- The operand-synthesis `switch` of the legacy generator
(`src/services/mathEngine.ts` lines 83-111).  `Math.floor(Math.sqrt(max))`
is `Nat.sqrt max.toNat` (the generator is only used with non-negative
bounds). -/
def synthesizeV1 (maxNumber : Int) (op : Operator) (r1 r2 : ℚ)
    (newId : String) : Question :=
  match op with
  | Operator.add =>
      let num1 := ⌊r1 * ((maxNumber : ℚ) - 1)⌋ + 1
      let num2 := ⌊r2 * ((maxNumber : ℚ) - (num1 : ℚ))⌋
      ⟨newId, num1, num2, Operator.add, num1 + num2, false, false⟩
  | Operator.sub =>
      let num1 := ⌊r1 * ((maxNumber : ℚ) - 1)⌋ + 1
      let num2 := ⌊r2 * (num1 : ℚ)⌋
      ⟨newId, num1, num2, Operator.sub, num1 - num2, false, false⟩
  | Operator.mul =>
      let limit : Int := Nat.sqrt maxNumber.toNat
      let num1 := ⌊r1 * (limit : ℚ)⌋ + 1
      let num2 := ⌊r2 * (limit : ℚ)⌋ + 1
      ⟨newId, num1, num2, Operator.mul, num1 * num2, false, false⟩
  | Operator.div =>
      let divLimit : Int := Nat.sqrt maxNumber.toNat
      let quotient := ⌊r1 * (divLimit : ℚ)⌋ + 1
      let num2 := ⌊r2 * (divLimit : ℚ)⌋ + 1
      ⟨newId, quotient * num2, num2, Operator.div, quotient, false, false⟩

/-- The fresh-question path of the legacy `generateQuestion`
(`src/services/mathEngine.ts` lines 75-121). -/
def generateQuestionV1Core (maxNumber : Int) (operators : List Operator)
    (r0 r1 r2 : ℚ) (newId : String) : Question :=
  let vops := validOperators operators
  synthesizeV1 maxNumber (vops.getD (⌊r0 * (vops.length : ℚ)⌋).toNat Operator.add)
    r1 r2 newId

/-- Insertion step for the JS `sort((a, b) => a.nextReviewTime - b.nextReviewTime)`
over due mistakes. -/
def insertByTime (m : MistakeRecord) : List MistakeRecord → List MistakeRecord
  | [] => [m]
  | x :: xs =>
      if m.nextReviewTime ≤ x.nextReviewTime then m :: x :: xs
      else x :: insertByTime m xs

/-- Sort by ascending `nextReviewTime`, modelling the JS comparator sort
in both generators (`src/services/mathEngine.ts` lines 63 and 225). -/
def sortByNextReviewTime : List MistakeRecord → List MistakeRecord
  | [] => []
  | x :: xs => insertByTime x (sortByNextReviewTime xs)

/-- Placeholder record for `getD` on a list the code has already checked
to be non-empty. -/
def defaultMistake : MistakeRecord :=
  ⟨⟨"", 0, 0, Operator.add, 0, false, false⟩, 0, 0, 0, 0, 0⟩

/-- The review-injection branch shared by both generators: filter due
records, sort by urgency, take the top 3, pick one at random, re-issue
with a fresh id and `isReview = true` (`src/services/mathEngine.ts`
lines 57-73 and 222-229). -/
def pickReviewQuestion (mistakes : List MistakeRecord) (now : Int)
    (rPick : ℚ) (newId : String) : Question :=
  let dueMistakes := mistakes.filter fun m => m.nextReviewTime ≤ now
  let sorted := sortByNextReviewTime dueMistakes
  let topCandidates := sorted.take 3
  let mistake :=
    topCandidates.getD (⌊rPick * (topCandidates.length : ℚ)⌋).toNat defaultMistake
  { mistake.question with id := newId, isReview := true }

/-- The updated `generateQuestion` (`src/services/mathEngine.ts` lines
214-280): with probability 0.3, if a due mistake exists, re-issue one;
otherwise synthesize a fresh question from the config. -/
def generateQuestion (config : StageConfig) (mistakes : List MistakeRecord)
    (now : Int) (rReview rPick r0 r1 r2 : ℚ) (newId : String) : Question :=
  let dueMistakes := mistakes.filter fun m => m.nextReviewTime ≤ now
  if 0 < dueMistakes.length ∧ rReview < 3 / 10 then
    pickReviewQuestion mistakes now rPick newId
  else
    generateQuestionCore config r0 r1 r2 newId

/-- The legacy `generateQuestion` (`src/services/mathEngine.ts` lines
48-121), with review probability 0.4. -/
def generateQuestionV1 (maxNumber : Int) (operators : List Operator)
    (mistakes : List MistakeRecord) (now : Int)
    (rReview rPick r0 r1 r2 : ℚ) (newId : String) : Question :=
  let dueMistakes := mistakes.filter fun m => m.nextReviewTime ≤ now
  if 0 < dueMistakes.length ∧ rReview < 4 / 10 then
    pickReviewQuestion mistakes now rPick newId
  else
    generateQuestionV1Core maxNumber operators r0 r1 r2 newId

/-- The exact-evaluation invariant claimed for generated questions: the
`answer` field is the integer evaluation of `num1 operator num2`; for
division the product form `num2 * answer = num1` (with a nonzero divisor)
expresses exactness. -/
def answerExact (q : Question) : Prop :=
  match q.operator with
  | Operator.add => q.answer = q.num1 + q.num2
  | Operator.sub => q.answer = q.num1 - q.num2
  | Operator.mul => q.answer = q.num1 * q.num2
  | Operator.div => q.num2 * q.answer = q.num1 ∧ q.num2 ≠ 0

instance (q : Question) : Decidable (answerExact q) := by
  unfold answerExact
  cases q.operator <;> exact inferInstance

/-- Table `LEVEL_Thresholds` (`constants` module): 101 entries,
`i = 0 ? 0 : Math.floor(100 * Math.pow(i, 1.5))`.  Over the reals
`⌊100 · i^{3/2}⌋ = ⌊√(10000 · i³)⌋ = Nat.sqrt (10000 * i³)`. -/
def LEVEL_Thresholds : List Nat :=
  (List.range 101).map fun i => if i = 0 then 0 else Nat.sqrt (10000 * i ^ 3)

/-- Per-day activity bucket (`dailyActivity` entries in `types.ts`). -/
structure DailyEntry where
  date : String
  count : Nat
deriving DecidableEq, Repr

/-- Per-operator statistics (`operatorStats` entries in `types.ts`). -/
structure OpStats where
  attempts : Nat
  correct : Nat
  totalTimeMs : Int
deriving DecidableEq, Repr

/-- State `UserStats` from `types.ts`, restricted to the fields the modelled
reducers read or write (`stageHistory` and `rewardsRedeemed` are only
spread through unchanged).  The JS objects `stageStars` (stage →
best stars, missing key ↦ 0 via `|| 0`) and `operatorStats` are modelled
as total functions. -/
structure UserStats where
  level : Nat
  xp : Nat
  points : Nat
  currentStage : Nat
  stageStars : Int → Nat
  totalQuestions : Nat
  correctAnswers : Nat
  currentStreak : Nat
  maxStreak : Nat
  badges : List String
  mistakes : List MistakeRecord
  dailyActivity : List DailyEntry
  bossesDefeated : Nat
  operatorStats : Operator → OpStats

/-- A badge definition: id plus predicate, as produced by `createBadge`
in the `constants` module; `App.tsx` treats the catalog opaquely, so the
reducer is parametrised by it. -/
structure BadgeDef where
  id : String
  condition : UserStats → Bool

/-- Badge sweep `checkBadges` (`src/App.tsx` lines 102-110): ids of catalog entries
whose condition holds and which are not already earned, in catalog
order. -/
def checkBadges (catalog : List BadgeDef) (s : UserStats) : List String :=
  (catalog.filter fun b => !(s.badges.contains b.id) && b.condition s).map
    fun b => b.id

/-- Model of `Array.findIndex`, with `none` for the JS `-1`. -/
def findIdxBool {α : Type} (p : α → Bool) : List α → Option Nat
  | [] => none
  | a :: as => if p a then some 0 else (findIdxBool p as).map (· + 1)

/-- The mistake-matching predicate of `handleAnswer` (`src/App.tsx` lines
280-284): match purely by the two operands and the operator, ignoring the
question id. -/
def sameFact (m : MistakeRecord) (q : Question) : Bool :=
  decide (m.question.num1 = q.num1 ∧ m.question.num2 = q.num2 ∧
    m.question.operator = q.operator)

/-- Number of mistake records for the fact triple of `q`. -/
def countFact (l : List MistakeRecord) (q : Question) : Nat :=
  l.countP fun m => sameFact m q

/-- The new-streak rule of `handleAnswer` (`src/App.tsx` line 239). -/
def streakAfter (prev : UserStats) (correct : Bool) : Nat :=
  if correct then prev.currentStreak + 1 else 0

/-- The XP gain of one answer event (`src/App.tsx` lines 241-243):
base `10 + min(newStreak, 10)` when correct, else 1; plus 50 for a
correct boss answer. -/
def xpGainFor (prev : UserStats) (q : Question) (correct : Bool) : Nat :=
  let xpGain := if correct then 10 + min (streakAfter prev correct) 10 else 1
  if correct && q.isBoss then xpGain + 50 else xpGain

/-- The level rule of `handleAnswer` (`src/App.tsx` lines 251-255): a
single `if`, guarded by the truthiness of `LEVEL_Thresholds[prev.level]`
(`none` models an out-of-bounds `undefined`, and the entry `0` at index 0
is falsy). -/
def nextLevel (level : Nat) (newXp : Nat) : Nat :=
  match LEVEL_Thresholds[level]? with
  | some t => if t ≠ 0 ∧ newXp ≥ t then level + 1 else level
  | none => level

/-- The daily-activity update of `handleAnswer` (`src/App.tsx` lines
257-264). -/
def updateDaily (l : List DailyEntry) (today : String) : List DailyEntry :=
  match findIdxBool (fun d => d.date == today) l with
  | some i =>
      l.set i { l.getD i ⟨today, 0⟩ with count := (l.getD i ⟨today, 0⟩).count + 1 }
  | none => l ++ [⟨today, 1⟩]

/-- The SRS mistake-list update of `handleAnswer` (`src/App.tsx` lines
275-307): look up by fact triple; on a hit run the scheduler (`null`
removes, otherwise replace); on a miss insert a fresh record only when
the answer was wrong. -/
def updateMistakes (mistakes : List MistakeRecord) (q : Question)
    (correct : Bool) (userAnswer : Int) (now : Int) : List MistakeRecord :=
  match findIdxBool (fun m => sameFact m q) mistakes with
  | some i =>
      match calculateNextReview (mistakes.getD i defaultMistake) correct now with
      | none => mistakes.eraseIdx i
      | some updated => mistakes.set i updated
  | none =>
      if !correct then
        mistakes ++ [⟨q, userAnswer, now, 0, now + 60 * 1000, 0⟩]
      else mistakes

/-- The progress reducer: the `setStats` body of `handleAnswer`
(`src/App.tsx` lines 237-329), as a pure function of the previous state,
the answered question, the outcome and the clock. -/
def applyAnswer (catalog : List BadgeDef) (prev : UserStats) (q : Question)
    (correct : Bool) (userAnswer : Int) (timeTakenMs : Int) (now : Int)
    (today : String) : UserStats :=
  let newCorrect := if correct then prev.correctAnswers + 1 else prev.correctAnswers
  let newStreak := streakAfter prev correct
  let newMaxStreak := max prev.maxStreak newStreak
  let newXp := prev.xp + xpGainFor prev q correct
  let pointsGain := if correct then (if q.isBoss then 5 else 1) else 0
  let newPoints := prev.points + pointsGain
  let newBossesDefeated :=
    if correct && q.isBoss then prev.bossesDefeated + 1 else prev.bossesDefeated
  let newLevel := nextLevel prev.level newXp
  let newDaily := updateDaily prev.dailyActivity today
  let op := q.operator
  let cur := prev.operatorStats op
  let newOpStats : OpStats :=
    ⟨cur.attempts + 1, cur.correct + (if correct then 1 else 0),
     cur.totalTimeMs + timeTakenMs⟩
  let newMistakes := updateMistakes prev.mistakes q correct userAnswer now
  let tempStats : UserStats :=
    { prev with
      level := newLevel
      xp := newXp
      points := newPoints
      totalQuestions := prev.totalQuestions + 1
      correctAnswers := newCorrect
      currentStreak := newStreak
      maxStreak := newMaxStreak
      mistakes := newMistakes
      bossesDefeated := newBossesDefeated
      dailyActivity := newDaily
      operatorStats := fun o => if o = op then newOpStats else prev.operatorStats o }
  { tempStats with badges := prev.badges ++ checkBadges catalog tempStats }

/-- One answer event, bundling the arguments of `applyAnswer`. -/
structure AnswerEvent where
  question : Question
  correct : Bool
  userAnswer : Int
  timeTakenMs : Int
  now : Int
  today : String

/-- A sequence of answer events applied in order. -/
def applyAnswers (catalog : List BadgeDef) (s : UserStats)
    (evs : List AnswerEvent) : UserStats :=
  evs.foldl
    (fun st e =>
      applyAnswer catalog st e.question e.correct e.userAnswer e.timeTakenMs
        e.now e.today)
    s

/-- The star computation of `finishStage` (`src/App.tsx` lines 353-360):
`percentage = correctCount / total` (division by zero yields no star, as
the JS `NaN` comparisons do), then the 0.9 / 0.6 / 0.3 thresholds. -/
def calcStars (correctCount total : Nat) : Nat :=
  let percentage : ℚ := (correctCount : ℚ) / (total : ℚ)
  if percentage ≥ 9 / 10 then 3
  else if percentage ≥ 6 / 10 then 2
  else if percentage ≥ 3 / 10 then 1
  else 0

/-- The state update of `finishStage` (`src/App.tsx` lines 345-384):
review mode (`-1`) changes nothing; otherwise, when stars were earned,
advance `currentStage` if the frontier stage was played and record the
best star rating for the played stage.  `answers` is the list of
per-question correctness flags; `totalQuestionCount` is
`stageQuestions.length`. -/
def finishStageUpdate (prev : UserStats) (playingStageNumber : Int)
    (answers : List Bool) (totalQuestionCount : Nat) : UserStats :=
  if playingStageNumber = -1 then prev
  else
    let correctCount := (answers.filter fun a => a).length
    let stars := calcStars correctCount totalQuestionCount
    if 0 < stars then
      let nextStage :=
        if playingStageNumber = (prev.currentStage : Int) then
          prev.currentStage + 1
        else prev.currentStage
      let oldStars := prev.stageStars playingStageNumber
      { prev with
        currentStage := nextStage
        stageStars := fun st =>
          if st = playingStageNumber then max oldStars stars
          else prev.stageStars st }
    else prev

/-- The level-update rule as the spec's sentence states it — a `while`
loop over the same threshold table (`while XP ≥ threshold(level),
level += 1`) — for comparison with the single-step rule `nextLevel`
actually implemented in `handleAnswer`.  `fuel` bounds the loop; 101
exceeds the table length, so the loop always terminates inside it. -/
def levelUpWhileSpec (fuel : Nat) (xp : Nat) (level : Nat) : Nat :=
  match fuel with
  | 0 => level
  | f + 1 =>
      match LEVEL_Thresholds[level]? with
      | some t =>
          if t ≠ 0 ∧ xp ≥ t then levelUpWhileSpec f xp (level + 1) else level
      | none => level

/-- A sample generated question (3 + 4 = 7) for concrete instantiations. -/
def sampleQuestion : Question :=
  ⟨"q1", 3, 4, Operator.add, 7, false, false⟩

/-- A fresh mistake record for `sampleQuestion`, as `handleAnswer`
creates one (proficiency 0). -/
def sampleRecord : MistakeRecord :=
  ⟨sampleQuestion, 8, 0, 0, 60000, 0⟩

/-- A concrete state: level 1 with 271 XP, no history. -/
def c1State : UserStats :=
  { level := 1
    xp := 271
    points := 0
    currentStage := 1
    stageStars := fun _ => 0
    totalQuestions := 0
    correctAnswers := 0
    currentStreak := 0
    maxStreak := 0
    badges := []
    mistakes := []
    dailyActivity := []
    bossesDefeated := 0
    operatorStats := fun _ => ⟨0, 0, 0⟩ }

/-! ### Scheduler lemmas -/

lemma calculateNextReview_wrong (r : MistakeRecord) (now : Int) :
    calculateNextReview r false now =
      some { r with
        reviewCount := r.reviewCount + 1
        proficiency := 0
        nextReviewTime := now + 60 * 1000
        timestamp := now } := rfl

lemma calculateNextReview_correct_step (r : MistakeRecord) (now : Int)
    (h : r.proficiency + 1 < 5) :
    calculateNextReview r true now =
      some { r with
        reviewCount := r.reviewCount + 1
        proficiency := r.proficiency + 1
        nextReviewTime := now +
          srsIntervals.getD (min r.proficiency (srsIntervals.length - 1))
            (5 * 60 * 1000)
        timestamp := now } := by
  unfold calculateNextReview
  simp only [Bool.not_true, Bool.false_eq_true, if_false, ge_iff_le]
  rw [if_neg (by omega)]
  simp

lemma calculateNextReview_question (r : MistakeRecord) (c : Bool) (now : Int)
    (r' : MistakeRecord) (h : calculateNextReview r c now = some r') :
    r'.question = r.question := by
  unfold calculateNextReview at h
  rcases c with _ | _
  · simp only [Bool.not_false, if_true, Option.some.injEq] at h
    rw [← h]
  · simp only [Bool.not_true, Bool.false_eq_true, if_false] at h
    by_cases h5 : r.proficiency + 1 ≥ 5
    · rw [if_pos h5] at h
      exact absurd h (by simp)
    · rw [if_neg h5] at h
      simp only [Option.some.injEq] at h
      rw [← h]

lemma advanceCorrectIter_prof (ts : Nat → Int) (r : MistakeRecord)
    (h0 : r.proficiency = 0) :
    ∀ k, k ≤ 4 → ∃ r', advanceCorrectIter ts r k = some r' ∧
      r'.proficiency = k := by
  intro k
  induction k with
  | zero => intro _; exact ⟨r, rfl, h0⟩
  | succ n ih =>
      intro hn
      obtain ⟨r', hr', hp⟩ := ih (by omega)
      have hstep := calculateNextReview_correct_step r' (ts n) (by omega)
      refine ⟨{ r' with
          reviewCount := r'.reviewCount + 1
          proficiency := r'.proficiency + 1
          nextReviewTime := ts n +
            srsIntervals.getD (min r'.proficiency (srsIntervals.length - 1))
              (5 * 60 * 1000)
          timestamp := ts n }, ?_, ?_⟩
      · show (advanceCorrectIter ts r n).bind
            (fun x => calculateNextReview x true (ts n)) = _
        rw [hr', Option.some_bind, hstep]
      · simp [hp]

/-- C3: for a mistake record at proficiency 0, repeatedly advancing with a
correct outcome returns an updated record (never the MASTERED signal) on
each of the first four calls, and returns MASTERED (`none`) on exactly the
fifth call. -/
theorem C3_mastered_on_fifth_correct (ts : Nat → Int) (r : MistakeRecord)
    (h0 : r.proficiency = 0) :
    (∀ k, k ≤ 4 → (advanceCorrectIter ts r k).isSome = true) ∧
      advanceCorrectIter ts r 5 = none := by
  constructor
  · intro k hk
    obtain ⟨r', hr', -⟩ := advanceCorrectIter_prof ts r h0 k hk
    rw [hr']
    rfl
  · obtain ⟨r', hr', hp⟩ := advanceCorrectIter_prof ts r h0 4 (by omega)
    show (advanceCorrectIter ts r 4).bind
        (fun x => calculateNextReview x true (ts 4)) = none
    rw [hr', Option.some_bind]
    unfold calculateNextReview
    simp [hp]

/-- Witness for C3 at the concrete record `sampleRecord`. -/
theorem C3_witness :
    sampleRecord.proficiency = 0 ∧
      (advanceCorrectIter (fun _ => 0) sampleRecord 3).isSome = true ∧
      advanceCorrectIter (fun _ => 0) sampleRecord 5 = none := by
  have h := C3_mastered_on_fifth_correct (fun _ => 0) sampleRecord rfl
  exact ⟨rfl, h.1 3 (by omega), h.2⟩

/-- C4: advancing any mistake record with a wrong outcome resets
proficiency to 0, schedules the next review exactly 60 seconds after
`now` (in particular within 60 seconds of `now`), increments the review
counter and refreshes the timestamp. -/
theorem C4_wrong_answer_resets (r : MistakeRecord) (now : Int) :
    ∃ r', calculateNextReview r false now = some r' ∧
      r'.proficiency = 0 ∧
      r'.nextReviewTime = now + 60 * 1000 ∧
      now ≤ r'.nextReviewTime ∧ r'.nextReviewTime ≤ now + 60 * 1000 ∧
      r'.reviewCount = r.reviewCount + 1 ∧
      r'.timestamp = now := by
  refine ⟨_, calculateNextReview_wrong r now, rfl, rfl, by simp,
    by simp, rfl, rfl⟩

/-! ### List helper lemmas -/

lemma getD_mem {α : Type} (l : List α) (i : Nat) (d : α) (h : i < l.length) :
    l.getD i d ∈ l := by
  induction l generalizing i with
  | nil => simp at h
  | cons a as ih =>
      cases i with
      | zero => simp
      | succ n =>
          simp only [List.getD_cons_succ]
          exact List.mem_cons_of_mem a (ih n (by simpa using h))

lemma findIdxBool_none {α : Type} (p : α → Bool) (l : List α) :
    findIdxBool p l = none ↔ ∀ a ∈ l, p a = false := by
  induction l with
  | nil => simp [findIdxBool]
  | cons a as ih =>
      unfold findIdxBool
      by_cases hpa : p a
      · simp [hpa]
      · simp only [Bool.not_eq_true] at hpa
        simp [hpa, ih]

lemma findIdxBool_some {α : Type} (p : α → Bool) (l : List α) (i : Nat)
    (d : α) (h : findIdxBool p l = some i) :
    i < l.length ∧ p (l.getD i d) = true := by
  induction l generalizing i with
  | nil => simp [findIdxBool] at h
  | cons a as ih =>
      unfold findIdxBool at h
      by_cases hpa : p a
      · rw [if_pos hpa] at h
        simp only [Option.some.injEq] at h
        subst h
        simpa using hpa
      · rw [if_neg hpa, Option.map_eq_some'] at h
        obtain ⟨j, hj, hij⟩ := h
        subst hij
        obtain ⟨hlt, hget⟩ := ih j hj
        exact ⟨by simpa using hlt, by simpa using hget⟩

lemma findIdxBool_isSome_of_countP_pos {α : Type} (p : α → Bool)
    (l : List α) (h : 0 < l.countP p) : ∃ i, findIdxBool p l = some i := by
  cases hf : findIdxBool p l with
  | none =>
      rw [findIdxBool_none] at hf
      rw [List.countP_eq_zero.mpr (by intro a ha; simpa using hf a ha)] at h
      exact absurd h (by omega)
  | some i => exact ⟨i, rfl⟩

lemma countP_set_same {α : Type} (p : α → Bool) (l : List α) (i : Nat)
    (x d : α) (hi : i < l.length) (hold : p (l.getD i d) = true)
    (hnew : p x = true) : (l.set i x).countP p = l.countP p := by
  induction l generalizing i with
  | nil => simp at hi
  | cons a as ih =>
      cases i with
      | zero =>
          simp only [List.getD_cons_zero] at hold
          simp [List.countP_cons, hold, hnew]
      | succ n =>
          simp only [List.getD_cons_succ] at hold
          simp only [List.set_cons_succ, List.countP_cons]
          rw [ih n (by simpa using hi) hold]

/-! ### Mistake-list update lemmas -/

lemma sameFact_self (q : Question) (ua : Int) (now : Int) :
    sameFact ⟨q, ua, now, 0, now + 60 * 1000, 0⟩ q = true := by
  simp [sameFact]

lemma sameFact_congr (m : MistakeRecord) (q1 q2 : Question)
    (h1 : q1.num1 = q2.num1) (h2 : q1.num2 = q2.num2)
    (h3 : q1.operator = q2.operator) : sameFact m q2 = sameFact m q1 := by
  simp [sameFact, h1, h2, h3]

lemma countFact_updateMistakes_wrong_new (l : List MistakeRecord)
    (q : Question) (ua now : Int) (h : countFact l q = 0) :
    countFact (updateMistakes l q false ua now) q = 1 := by
  unfold updateMistakes
  have hnone : findIdxBool (fun m => sameFact m q) l = none := by
    rw [findIdxBool_none]
    intro a ha
    have := List.countP_eq_zero.mp h a ha
    simpa using this
  rw [hnone]
  simp only [Bool.not_false, if_true]
  unfold countFact at h ⊢
  rw [List.countP_append, h]
  simp [List.countP_cons, sameFact]

lemma countFact_updateMistakes_wrong_found (l : List MistakeRecord)
    (q : Question) (ua now : Int) (i : Nat)
    (hfind : findIdxBool (fun m => sameFact m q) l = some i) :
    countFact (updateMistakes l q false ua now) q = countFact l q := by
  obtain ⟨hlt, hget⟩ :=
    findIdxBool_some (fun m => sameFact m q) l i defaultMistake hfind
  unfold updateMistakes
  rw [hfind]
  dsimp only
  rw [calculateNextReview_wrong]
  dsimp only
  unfold countFact
  refine countP_set_same _ l i _ defaultMistake hlt hget ?_
  have hq : ({ l.getD i defaultMistake with
      reviewCount := (l.getD i defaultMistake).reviewCount + 1
      proficiency := 0
      nextReviewTime := now + 60 * 1000
      timestamp := now } : MistakeRecord).question =
      (l.getD i defaultMistake).question := rfl
  simpa [sameFact, hq] using hget

lemma length_le_updateMistakes_wrong (l : List MistakeRecord) (q : Question)
    (ua now : Int) : l.length ≤ (updateMistakes l q false ua now).length := by
  unfold updateMistakes
  cases hf : findIdxBool (fun m => sameFact m q) l with
  | none => simp
  | some i =>
      dsimp only
      rw [calculateNextReview_wrong]
      simp

/-- C2: the mistake list is keyed by the (operand1, operand2, operator)
triple, not by question id: starting from a state with no record for the
triple, answering it wrong twice in a row — with two question instances
that share the triple but have different ids — leaves exactly one record
for that triple. -/
theorem C2_mistake_dedup_by_fact (catalog1 catalog2 : List BadgeDef)
    (prev : UserStats) (q1 q2 : Question) (ua1 ua2 tt1 tt2 now1 now2 : Int)
    (today1 today2 : String)
    (h1 : q1.num1 = q2.num1) (h2 : q1.num2 = q2.num2)
    (h3 : q1.operator = q2.operator) (_hid : q1.id ≠ q2.id)
    (h0 : countFact prev.mistakes q1 = 0) :
    countFact (applyAnswer catalog2
        (applyAnswer catalog1 prev q1 false ua1 tt1 now1 today1)
        q2 false ua2 tt2 now2 today2).mistakes q1 = 1 := by
  have hm1 : (applyAnswer catalog1 prev q1 false ua1 tt1 now1 today1).mistakes =
      updateMistakes prev.mistakes q1 false ua1 now1 := rfl
  have hs1 : countFact (updateMistakes prev.mistakes q1 false ua1 now1) q1 = 1 :=
    countFact_updateMistakes_wrong_new prev.mistakes q1 ua1 now1 h0
  have hm2 : (applyAnswer catalog2
      (applyAnswer catalog1 prev q1 false ua1 tt1 now1 today1)
      q2 false ua2 tt2 now2 today2).mistakes =
      updateMistakes (updateMistakes prev.mistakes q1 false ua1 now1) q2 false
        ua2 now2 := by rw [← hm1]; rfl
  rw [hm2]
  have hpred : (fun m => sameFact m q2) = (fun m => sameFact m q1) := by
    funext m
    exact sameFact_congr m q1 q2 h1 h2 h3
  have hcnt2 : countFact (updateMistakes prev.mistakes q1 false ua1 now1) q2 =
      countFact (updateMistakes prev.mistakes q1 false ua1 now1) q1 := by
    unfold countFact
    rw [hpred]
  obtain ⟨i, hi⟩ := findIdxBool_isSome_of_countP_pos (fun m => sameFact m q2)
    (updateMistakes prev.mistakes q1 false ua1 now1)
    (by unfold countFact at hcnt2 hs1; omega)
  have := countFact_updateMistakes_wrong_found
    (updateMistakes prev.mistakes q1 false ua1 now1) q2 ua2 now2 i hi
  unfold countFact at this hcnt2 hs1 ⊢
  rw [hpred] at this
  omega

/-- Witness for C2 at concrete questions 3+4 with ids "a" and "b" and the
empty starting state `c1State`. -/
theorem C2_witness :
    countFact (applyAnswer []
        (applyAnswer [] c1State sampleQuestion false 8 0 0 "d")
        { sampleQuestion with id := "b" } false 8 0 0 "d").mistakes
      sampleQuestion = 1 := by
  refine C2_mistake_dedup_by_fact [] [] c1State sampleQuestion
    { sampleQuestion with id := "b" } 8 8 0 0 0 0 "d" "d" rfl rfl rfl ?_ ?_
  · decide
  · rfl

/-- C10: a wrong answer never produces the MASTERED/removal signal — the
scheduler always returns an updated record — and consequently an answer
event with `correct = false` never shrinks the mistake list: removal can
only happen through the correct-answer mastery path. -/
theorem C10_wrong_never_masters :
    (∀ (r : MistakeRecord) (now : Int),
      (calculateNextReview r false now).isSome = true) ∧
    (∀ (catalog : List BadgeDef) (prev : UserStats) (q : Question)
      (ua tt now : Int) (today : String),
      prev.mistakes.length ≤
        (applyAnswer catalog prev q false ua tt now today).mistakes.length) := by
  constructor
  · intro r now
    rw [calculateNextReview_wrong]
    rfl
  · intro catalog prev q ua tt now today
    have hm : (applyAnswer catalog prev q false ua tt now today).mistakes =
        updateMistakes prev.mistakes q false ua now := rfl
    rw [hm]
    exact length_le_updateMistakes_wrong prev.mistakes q ua now

/-! ### Progress-reducer lemmas -/

lemma applyAnswer_correctAnswers (catalog : List BadgeDef) (prev : UserStats)
    (q : Question) (correct : Bool) (ua tt now : Int) (today : String) :
    (applyAnswer catalog prev q correct ua tt now today).correctAnswers =
      if correct then prev.correctAnswers + 1 else prev.correctAnswers := rfl

lemma applyAnswer_totalQuestions (catalog : List BadgeDef) (prev : UserStats)
    (q : Question) (correct : Bool) (ua tt now : Int) (today : String) :
    (applyAnswer catalog prev q correct ua tt now today).totalQuestions =
      prev.totalQuestions + 1 := rfl

lemma applyAnswer_currentStreak (catalog : List BadgeDef) (prev : UserStats)
    (q : Question) (correct : Bool) (ua tt now : Int) (today : String) :
    (applyAnswer catalog prev q correct ua tt now today).currentStreak =
      streakAfter prev correct := rfl

lemma applyAnswer_maxStreak (catalog : List BadgeDef) (prev : UserStats)
    (q : Question) (correct : Bool) (ua tt now : Int) (today : String) :
    (applyAnswer catalog prev q correct ua tt now today).maxStreak =
      max prev.maxStreak (streakAfter prev correct) := rfl

lemma applyAnswer_xp (catalog : List BadgeDef) (prev : UserStats)
    (q : Question) (correct : Bool) (ua tt now : Int) (today : String) :
    (applyAnswer catalog prev q correct ua tt now today).xp =
      prev.xp + xpGainFor prev q correct := rfl

lemma applyAnswer_level (catalog : List BadgeDef) (prev : UserStats)
    (q : Question) (correct : Bool) (ua tt now : Int) (today : String) :
    (applyAnswer catalog prev q correct ua tt now today).level =
      nextLevel prev.level (prev.xp + xpGainFor prev q correct) := rfl

lemma applyAnswer_stageStars (catalog : List BadgeDef) (prev : UserStats)
    (q : Question) (correct : Bool) (ua tt now : Int) (today : String) :
    (applyAnswer catalog prev q correct ua tt now today).stageStars =
      prev.stageStars := rfl

lemma nextLevel_bounds (level newXp : Nat) :
    level ≤ nextLevel level newXp ∧ nextLevel level newXp ≤ level + 1 := by
  unfold nextLevel
  cases LEVEL_Thresholds[level]? with
  | none => dsimp only; omega
  | some t =>
      dsimp only
      split <;> omega

lemma applyAnswer_step_correct_le_total (catalog : List BadgeDef)
    (prev : UserStats) (q : Question) (correct : Bool) (ua tt now : Int)
    (today : String) (h : prev.correctAnswers ≤ prev.totalQuestions) :
    (applyAnswer catalog prev q correct ua tt now today).correctAnswers ≤
      (applyAnswer catalog prev q correct ua tt now today).totalQuestions := by
  rw [applyAnswer_correctAnswers, applyAnswer_totalQuestions]
  split <;> omega

lemma applyAnswer_step_streak_le_max (catalog : List BadgeDef)
    (prev : UserStats) (q : Question) (correct : Bool) (ua tt now : Int)
    (today : String) :
    (applyAnswer catalog prev q correct ua tt now today).currentStreak ≤
      (applyAnswer catalog prev q correct ua tt now today).maxStreak := by
  rw [applyAnswer_currentStreak, applyAnswer_maxStreak]
  exact le_max_right _ _

lemma applyAnswer_step_xp_mono (catalog : List BadgeDef) (prev : UserStats)
    (q : Question) (correct : Bool) (ua tt now : Int) (today : String) :
    prev.xp ≤ (applyAnswer catalog prev q correct ua tt now today).xp := by
  rw [applyAnswer_xp]
  omega

lemma applyAnswer_step_level_mono (catalog : List BadgeDef)
    (prev : UserStats) (q : Question) (correct : Bool) (ua tt now : Int)
    (today : String) :
    prev.level ≤ (applyAnswer catalog prev q correct ua tt now today).level := by
  rw [applyAnswer_level]
  exact (nextLevel_bounds _ _).1

lemma applyAnswers_cons (catalog : List BadgeDef) (s : UserStats)
    (e : AnswerEvent) (evs : List AnswerEvent) :
    applyAnswers catalog s (e :: evs) =
      applyAnswers catalog
        (applyAnswer catalog s e.question e.correct e.userAnswer e.timeTakenMs
          e.now e.today) evs := rfl

/-- C9: one answer event preserves `correctAnswers ≤ totalQuestions`,
re-establishes `currentStreak ≤ maxStreak`, never decreases XP or level,
and leaves stage stars untouched; a stage outcome only ever raises the
recorded star rating of the played stage and leaves all the other
invariant-relevant fields unchanged; and along any sequence of answer
events the invariants are preserved and XP and level are monotone. -/
theorem C9_aggregate_invariants :
    (∀ (catalog : List BadgeDef) (prev : UserStats) (q : Question)
        (correct : Bool) (ua tt now : Int) (today : String),
      (prev.correctAnswers ≤ prev.totalQuestions →
        (applyAnswer catalog prev q correct ua tt now today).correctAnswers ≤
          (applyAnswer catalog prev q correct ua tt now today).totalQuestions) ∧
      (applyAnswer catalog prev q correct ua tt now today).currentStreak ≤
        (applyAnswer catalog prev q correct ua tt now today).maxStreak ∧
      prev.xp ≤ (applyAnswer catalog prev q correct ua tt now today).xp ∧
      prev.level ≤ (applyAnswer catalog prev q correct ua tt now today).level ∧
      (∀ st, (applyAnswer catalog prev q correct ua tt now today).stageStars st =
        prev.stageStars st)) ∧
    (∀ (prev : UserStats) (psn : Int) (answers : List Bool) (total : Nat),
      (∀ st, prev.stageStars st ≤
        (finishStageUpdate prev psn answers total).stageStars st) ∧
      (finishStageUpdate prev psn answers total).xp = prev.xp ∧
      (finishStageUpdate prev psn answers total).level = prev.level ∧
      (finishStageUpdate prev psn answers total).correctAnswers =
        prev.correctAnswers ∧
      (finishStageUpdate prev psn answers total).totalQuestions =
        prev.totalQuestions ∧
      (finishStageUpdate prev psn answers total).currentStreak =
        prev.currentStreak ∧
      (finishStageUpdate prev psn answers total).maxStreak = prev.maxStreak) ∧
    (∀ (catalog : List BadgeDef) (evs : List AnswerEvent) (prev : UserStats),
      (prev.correctAnswers ≤ prev.totalQuestions →
        (applyAnswers catalog prev evs).correctAnswers ≤
          (applyAnswers catalog prev evs).totalQuestions) ∧
      (prev.currentStreak ≤ prev.maxStreak →
        (applyAnswers catalog prev evs).currentStreak ≤
          (applyAnswers catalog prev evs).maxStreak) ∧
      prev.xp ≤ (applyAnswers catalog prev evs).xp ∧
      prev.level ≤ (applyAnswers catalog prev evs).level) := by
  refine ⟨?_, ?_, ?_⟩
  · intro catalog prev q correct ua tt now today
    exact ⟨applyAnswer_step_correct_le_total catalog prev q correct ua tt now today,
      applyAnswer_step_streak_le_max catalog prev q correct ua tt now today,
      applyAnswer_step_xp_mono catalog prev q correct ua tt now today,
      applyAnswer_step_level_mono catalog prev q correct ua tt now today,
      fun st => by rw [applyAnswer_stageStars]⟩
  · intro prev psn answers total
    unfold finishStageUpdate
    by_cases h1 : psn = -1
    · simp [h1]
    · rw [if_neg h1]
      by_cases h2 : 0 < calcStars (answers.filter fun a => a).length total
      · rw [if_pos h2]
        refine ⟨?_, rfl, rfl, rfl, rfl, rfl, rfl⟩
        intro st
        dsimp only
        by_cases hst : st = psn
        · rw [if_pos hst, hst]
          exact le_max_left _ _
        · rw [if_neg hst]
      · rw [if_neg h2]
        exact ⟨fun st => le_refl _, rfl, rfl, rfl, rfl, rfl, rfl⟩
  · intro catalog evs
    induction evs with
    | nil => intro prev; exact ⟨fun h => h, fun h => h, le_refl _, le_refl _⟩
    | cons e evs ih =>
        intro prev
        rw [applyAnswers_cons]
        obtain ⟨ihc, ihs, ihx, ihl⟩ :=
          ih (applyAnswer catalog prev e.question e.correct e.userAnswer
            e.timeTakenMs e.now e.today)
        refine ⟨?_, ?_, ?_, ?_⟩
        · intro h
          exact ihc (applyAnswer_step_correct_le_total catalog prev e.question
            e.correct e.userAnswer e.timeTakenMs e.now e.today h)
        · intro _
          exact ihs (applyAnswer_step_streak_le_max catalog prev e.question
            e.correct e.userAnswer e.timeTakenMs e.now e.today)
        · exact le_trans (applyAnswer_step_xp_mono catalog prev e.question
            e.correct e.userAnswer e.timeTakenMs e.now e.today) ihx
        · exact le_trans (applyAnswer_step_level_mono catalog prev e.question
            e.correct e.userAnswer e.timeTakenMs e.now e.today) ihl

/-- Witness for C9 at the concrete state `c1State` and one correct answer. -/
theorem C9_witness :
    c1State.correctAnswers ≤ c1State.totalQuestions ∧
      (applyAnswer [] c1State sampleQuestion true 7 0 0 "d").correctAnswers ≤
        (applyAnswer [] c1State sampleQuestion true 7 0 0 "d").totalQuestions ∧
      c1State.currentStreak ≤ c1State.maxStreak ∧
      (applyAnswers [] c1State []).currentStreak ≤
        (applyAnswers [] c1State []).maxStreak := by
  have h0 : c1State.correctAnswers ≤ c1State.totalQuestions := by decide
  have hs : c1State.currentStreak ≤ c1State.maxStreak := by decide
  exact ⟨h0,
    (C9_aggregate_invariants.1 [] c1State sampleQuestion true 7 0 0 "d").1 h0,
    hs, (C9_aggregate_invariants.2.2 [] [] c1State).2.1 hs⟩

/-! ### Level-threshold values -/

lemma LEVEL_Thresholds_getElem (i : Nat) (h : i < 101) :
    LEVEL_Thresholds[i]? = some (if i = 0 then 0 else Nat.sqrt (10000 * i ^ 3)) := by
  unfold LEVEL_Thresholds
  rw [List.getElem?_map, List.getElem?_range h]
  rfl

lemma LEVEL_Thresholds_one : LEVEL_Thresholds[(1 : Nat)]? = some 100 := by
  rw [LEVEL_Thresholds_getElem 1 (by omega)]
  have : Nat.sqrt 10000 = 100 := (Nat.eq_sqrt.mpr (by norm_num)).symm
  norm_num [this]

lemma LEVEL_Thresholds_two : LEVEL_Thresholds[(2 : Nat)]? = some 282 := by
  rw [LEVEL_Thresholds_getElem 2 (by omega)]
  have : Nat.sqrt 80000 = 282 := (Nat.eq_sqrt.mpr (by norm_num)).symm
  norm_num [this]

lemma LEVEL_Thresholds_three : LEVEL_Thresholds[(3 : Nat)]? = some 519 := by
  rw [LEVEL_Thresholds_getElem 3 (by omega)]
  have : Nat.sqrt 270000 = 519 := (Nat.eq_sqrt.mpr (by norm_num)).symm
  norm_num [this]

lemma levelUpWhileSpec_succ (f xp level : Nat) :
    levelUpWhileSpec (f + 1) xp level =
      match LEVEL_Thresholds[level]? with
      | some t =>
          if t ≠ 0 ∧ xp ≥ t then levelUpWhileSpec f xp (level + 1) else level
      | none => level := rfl

/-- C1 counterexample: at level 1 with 271 XP, one correct answer adds 11
XP, reaching 282 — at or above both threshold(1) = 100 and
threshold(2) = 282.  The reducer raises the level only to 2 (its check is
a single `if`), while the looping rule the claim describes would raise it
to 3. -/
theorem C1_counterexample :
    (applyAnswer [] c1State sampleQuestion true 7 0 0 "d").xp = 282 ∧
    (applyAnswer [] c1State sampleQuestion true 7 0 0 "d").level = 2 ∧
    LEVEL_Thresholds[(2 : Nat)]? = some 282 ∧
    levelUpWhileSpec 101 282 1 = 3 := by
  refine ⟨rfl, ?_, LEVEL_Thresholds_two, ?_⟩
  · have h : (applyAnswer [] c1State sampleQuestion true 7 0 0 "d").level =
        nextLevel 1 282 := rfl
    rw [h]
    unfold nextLevel
    rw [LEVEL_Thresholds_one]
    norm_num
  · rw [show (101 : Nat) = 100 + 1 from rfl, levelUpWhileSpec_succ,
      LEVEL_Thresholds_one]
    dsimp only
    rw [if_pos (by norm_num)]
    rw [show (100 : Nat) = 99 + 1 from rfl, levelUpWhileSpec_succ,
      LEVEL_Thresholds_two]
    dsimp only
    rw [if_pos (by norm_num)]
    rw [show (99 : Nat) = 98 + 1 from rfl, levelUpWhileSpec_succ,
      LEVEL_Thresholds_three]
    dsimp only
    rw [if_neg (by norm_num)]

/-- C1 amended: the reducer's level-up check is a single `if`, not a
loop — after one answer event the level either stays or rises by exactly
one, whatever the XP gained. -/
theorem C1_amended_single_level_step (catalog : List BadgeDef)
    (prev : UserStats) (q : Question) (correct : Bool) (ua tt now : Int)
    (today : String) :
    prev.level ≤ (applyAnswer catalog prev q correct ua tt now today).level ∧
    (applyAnswer catalog prev q correct ua tt now today).level ≤
      prev.level + 1 := by
  rw [applyAnswer_level]
  exact nextLevel_bounds _ _

/-! ### Stage outcome evaluator -/

lemma calcStars_eq (c t : Nat) (ht : 0 < t) :
    calcStars c t =
      if 9 * t ≤ 10 * c then 3
      else if 6 * t ≤ 10 * c then 2
      else if 3 * t ≤ 10 * c then 1
      else 0 := by
  have htQ : (0 : ℚ) < (t : ℚ) := by exact_mod_cast ht
  have k9 : ((9 : ℚ) / 10 ≤ (c : ℚ) / (t : ℚ)) ↔ 9 * t ≤ 10 * c := by
    rw [div_le_div_iff₀ (by norm_num) htQ, mul_comm (c : ℚ) (10 : ℚ)]
    exact_mod_cast Iff.rfl
  have k6 : ((6 : ℚ) / 10 ≤ (c : ℚ) / (t : ℚ)) ↔ 6 * t ≤ 10 * c := by
    rw [div_le_div_iff₀ (by norm_num) htQ, mul_comm (c : ℚ) (10 : ℚ)]
    exact_mod_cast Iff.rfl
  have k3 : ((3 : ℚ) / 10 ≤ (c : ℚ) / (t : ℚ)) ↔ 3 * t ≤ 10 * c := by
    rw [div_le_div_iff₀ (by norm_num) htQ, mul_comm (c : ℚ) (10 : ℚ)]
    exact_mod_cast Iff.rfl
  unfold calcStars
  simp only [ge_iff_le, k9, k6, k3]

/-- C8: the stage outcome evaluator awards stars against the fraction
correct with thresholds 0.9 / 0.6 / 0.3 (equivalently, by
cross-multiplication, `9·total ≤ 10·correct` and so on); in particular
9 of 10 correct gives 3 stars and exactly 6 of 10 gives 2. -/
theorem C8_star_thresholds :
    calcStars 9 10 = 3 ∧ calcStars 6 10 = 2 ∧
    ∀ c t, 0 < t →
      calcStars c t =
        if 9 * t ≤ 10 * c then 3
        else if 6 * t ≤ 10 * c then 2
        else if 3 * t ≤ 10 * c then 1
        else 0 := by
  refine ⟨?_, ?_, fun c t ht => calcStars_eq c t ht⟩
  · rw [calcStars_eq 9 10 (by omega)]
    norm_num
  · rw [calcStars_eq 6 10 (by omega)]
    norm_num

/-- Witness for C8 at 7 of 10 correct (2 stars). -/
theorem C8_witness : (0 : Nat) < 10 ∧ calcStars 7 10 = 2 := by
  refine ⟨by omega, ?_⟩
  rw [C8_star_thresholds.2.2 7 10 (by omega)]
  norm_num

/-! ### Rational floor bounds for the random draws -/

lemma floor_mul_natCast_nonneg (r : ℚ) (k : ℕ) (h0 : 0 ≤ r) :
    0 ≤ ⌊r * (k : ℚ)⌋ :=
  Int.floor_nonneg.mpr (mul_nonneg h0 (by positivity))

lemma floor_mul_natCast_lt (r : ℚ) (k : ℕ) (hr1 : r < 1) (hk : 0 < k) :
    ⌊r * (k : ℚ)⌋ < (k : ℤ) := by
  refine Int.floor_lt.mpr ?_
  have hkQ : (0 : ℚ) < (k : ℚ) := by exact_mod_cast hk
  calc r * (k : ℚ) < 1 * (k : ℚ) := mul_lt_mul_of_pos_right hr1 hkQ
  _ = ((k : ℤ) : ℚ) := by push_cast; ring

lemma floor_mul_intCast_nonneg (r : ℚ) (k : ℤ) (h0 : 0 ≤ r) (hk : 0 ≤ k) :
    0 ≤ ⌊r * (k : ℚ)⌋ :=
  Int.floor_nonneg.mpr (mul_nonneg h0 (by exact_mod_cast hk))

lemma floor_mul_intCast_le (r : ℚ) (k : ℤ) (h1 : r < 1)
    (hk : 0 ≤ k) : ⌊r * (k : ℚ)⌋ ≤ k := by
  have hle : r * (k : ℚ) ≤ (k : ℚ) := by
    calc r * (k : ℚ) ≤ 1 * (k : ℚ) :=
      mul_le_mul_of_nonneg_right h1.le (by exact_mod_cast hk)
    _ = (k : ℚ) := one_mul _
  calc ⌊r * (k : ℚ)⌋ ≤ ⌊(k : ℚ)⌋ := Int.floor_le_floor hle
  _ = k := Int.floor_intCast k

/-! ### Question generator lemmas -/

lemma validOperators_ne_nil (ops : List Operator) : validOperators ops ≠ [] := by
  unfold validOperators
  split
  · simp
  · next h => simpa using h

lemma synthesize_operator (config : StageConfig) (op : Operator) (r1 r2 : ℚ)
    (newId : String) : (synthesize config op r1 r2 newId).operator = op := by
  cases op with
  | add => rfl
  | sub => rfl
  | mul =>
      show ((if config.max < 300 then _ else _ : Question)).operator = Operator.mul
      split <;> rfl
  | div => rfl

lemma synthesize_isReview (config : StageConfig) (op : Operator) (r1 r2 : ℚ)
    (newId : String) : (synthesize config op r1 r2 newId).isReview = false := by
  cases op with
  | add => rfl
  | sub => rfl
  | mul =>
      show ((if config.max < 300 then _ else _ : Question)).isReview = false
      split <;> rfl
  | div => rfl

lemma synthesizeV1_operator (maxNumber : Int) (op : Operator) (r1 r2 : ℚ)
    (newId : String) : (synthesizeV1 maxNumber op r1 r2 newId).operator = op := by
  cases op <;> rfl

lemma answerExact_synthesize (config : StageConfig) (op : Operator)
    (r1 r2 : ℚ) (newId : String) (h10 : 0 ≤ r1) :
    answerExact (synthesize config op r1 r2 newId) := by
  cases op with
  | add => exact rfl
  | sub => exact rfl
  | mul =>
      show answerExact ((if config.max < 300 then _ else _ : Question))
      split
      · exact rfl
      · exact rfl
  | div =>
      refine ⟨mul_comm _ _, ?_⟩
      have hf : 0 ≤ ⌊r1 * (8 : ℚ)⌋ :=
        Int.floor_nonneg.mpr (mul_nonneg h10 (by norm_num))
      show ⌊r1 * (8 : ℚ)⌋ + 2 ≠ 0
      omega

lemma answerExact_synthesizeV1 (maxNumber : Int) (op : Operator)
    (r1 r2 : ℚ) (newId : String) (h20 : 0 ≤ r2) :
    answerExact (synthesizeV1 maxNumber op r1 r2 newId) := by
  cases op with
  | add => exact rfl
  | sub => exact rfl
  | mul => exact rfl
  | div =>
      refine ⟨mul_comm _ _, ?_⟩
      have hf : 0 ≤ ⌊r2 * ((Nat.sqrt maxNumber.toNat : Int) : ℚ)⌋ :=
        floor_mul_intCast_nonneg r2 _ h20 (Int.natCast_nonneg _)
      show ⌊r2 * ((Nat.sqrt maxNumber.toNat : Int) : ℚ)⌋ + 1 ≠ 0
      omega

lemma generateQuestionCore_eq (config : StageConfig) (r0 r1 r2 : ℚ)
    (newId : String) :
    generateQuestionCore config r0 r1 r2 newId =
      synthesize config
        ((validOperators config.operators).getD
          (⌊r0 * (((validOperators config.operators).length : ℕ) : ℚ)⌋).toNat
          Operator.add) r1 r2 newId := rfl

lemma generateQuestionV1Core_eq (maxNumber : Int) (operators : List Operator)
    (r0 r1 r2 : ℚ) (newId : String) :
    generateQuestionV1Core maxNumber operators r0 r1 r2 newId =
      synthesizeV1 maxNumber
        ((validOperators operators).getD
          (⌊r0 * (((validOperators operators).length : ℕ) : ℚ)⌋).toNat
          Operator.add) r1 r2 newId := rfl

lemma chooseIdx_lt (ops : List Operator) (r0 : ℚ) (h0 : 0 ≤ r0)
    (h1 : r0 < 1) :
    (⌊r0 * (((validOperators ops).length : ℕ) : ℚ)⌋).toNat <
      (validOperators ops).length := by
  have hlen : 0 < (validOperators ops).length :=
    List.length_pos.mpr (validOperators_ne_nil ops)
  have hlt := floor_mul_natCast_lt r0 (validOperators ops).length h1 hlen
  have hnn := floor_mul_natCast_nonneg r0 (validOperators ops).length h0
  omega

lemma generateQuestionCore_operator_mem (config : StageConfig) (r0 r1 r2 : ℚ)
    (newId : String) (h0 : 0 ≤ r0) (h1 : r0 < 1) :
    (generateQuestionCore config r0 r1 r2 newId).operator ∈
      validOperators config.operators := by
  rw [generateQuestionCore_eq, synthesize_operator]
  exact getD_mem _ _ _ (chooseIdx_lt config.operators r0 h0 h1)

lemma generateQuestionV1Core_operator_mem (maxNumber : Int)
    (operators : List Operator) (r0 r1 r2 : ℚ) (newId : String)
    (h0 : 0 ≤ r0) (h1 : r0 < 1) :
    (generateQuestionV1Core maxNumber operators r0 r1 r2 newId).operator ∈
      validOperators operators := by
  rw [generateQuestionV1Core_eq, synthesizeV1_operator]
  exact getD_mem _ _ _ (chooseIdx_lt operators r0 h0 h1)

lemma mem_insertByTime (x m : MistakeRecord) (l : List MistakeRecord) :
    x ∈ insertByTime m l ↔ x = m ∨ x ∈ l := by
  induction l with
  | nil => simp [insertByTime]
  | cons a as ih =>
      unfold insertByTime
      split
      · simp [List.mem_cons]
      · simp only [List.mem_cons, ih]
        tauto

lemma mem_sortByNextReviewTime (x : MistakeRecord) (l : List MistakeRecord) :
    x ∈ sortByNextReviewTime l ↔ x ∈ l := by
  induction l with
  | nil => simp [sortByNextReviewTime]
  | cons a as ih =>
      unfold sortByNextReviewTime
      rw [mem_insertByTime]
      simp [ih]

lemma length_insertByTime (m : MistakeRecord) (l : List MistakeRecord) :
    (insertByTime m l).length = l.length + 1 := by
  induction l with
  | nil => rfl
  | cons a as ih =>
      unfold insertByTime
      split
      · simp
      · simp [ih]

lemma length_sortByNextReviewTime (l : List MistakeRecord) :
    (sortByNextReviewTime l).length = l.length := by
  induction l with
  | nil => rfl
  | cons a as ih =>
      unfold sortByNextReviewTime
      rw [length_insertByTime, ih]
      rfl

lemma pickReviewQuestion_spec (mistakes : List MistakeRecord) (now : Int)
    (rPick : ℚ) (newId : String) (hp0 : 0 ≤ rPick) (hp1 : rPick < 1)
    (hdue : 0 < (mistakes.filter fun m =>
      decide (m.nextReviewTime ≤ now)).length) :
    ∃ m ∈ mistakes, pickReviewQuestion mistakes now rPick newId =
      { m.question with id := newId, isReview := true } := by
  unfold pickReviewQuestion
  have hsortlen : 0 < (sortByNextReviewTime (mistakes.filter fun m =>
      decide (m.nextReviewTime ≤ now))).length := by
    rw [length_sortByNextReviewTime]
    exact hdue
  have htoplen : 0 < ((sortByNextReviewTime (mistakes.filter fun m =>
      decide (m.nextReviewTime ≤ now))).take 3).length := by
    rw [List.length_take]
    omega
  have hidx := floor_mul_natCast_lt rPick _ hp1 htoplen
  have hnn := floor_mul_natCast_nonneg rPick ((sortByNextReviewTime
    (mistakes.filter fun m => decide (m.nextReviewTime ≤ now))).take 3).length
    hp0
  have hlt : (⌊rPick * ((((sortByNextReviewTime (mistakes.filter fun m =>
      decide (m.nextReviewTime ≤ now))).take 3).length : ℕ) : ℚ)⌋).toNat <
      ((sortByNextReviewTime (mistakes.filter fun m =>
        decide (m.nextReviewTime ≤ now))).take 3).length := by
    omega
  have hmemTop := getD_mem _ _ defaultMistake hlt
  have hmemSorted := List.take_subset 3 _ hmemTop
  rw [mem_sortByNextReviewTime] at hmemSorted
  have hmem : ((sortByNextReviewTime (mistakes.filter fun m =>
      decide (m.nextReviewTime ≤ now))).take 3).getD
      (⌊rPick * ((((sortByNextReviewTime (mistakes.filter fun m =>
        decide (m.nextReviewTime ≤ now))).take 3).length : ℕ) : ℚ)⌋).toNat
      defaultMistake ∈ mistakes := (List.mem_filter.mp hmemSorted).1
  exact ⟨_, hmem, rfl⟩

lemma answerExact_reissue (q : Question) (newId : String)
    (h : answerExact q) :
    answerExact { q with id := newId, isReview := true } := h

/-- C5: every question the generators return evaluates exactly — the
`answer` field is the integer evaluation of `num1 operator num2`, and for
division `num2 * answer = num1` with a nonzero divisor — provided every
pooled mistake stores an exactly-evaluating question (re-issued review
questions copy the pooled fact); and every freshly synthesized question's
operator is drawn from `config.operators` (with the addition fallback for
an empty set). -/
theorem C5_generated_answers_exact (config : StageConfig)
    (mistakes : List MistakeRecord) (now : Int)
    (rReview rPick r0 r1 r2 : ℚ) (newId : String)
    (maxNumber : Int) (ops1 : List Operator)
    (h00 : 0 ≤ r0) (h01 : r0 < 1) (h10 : 0 ≤ r1) (h20 : 0 ≤ r2)
    (hp0 : 0 ≤ rPick) (hp1 : rPick < 1)
    (hpool : ∀ m ∈ mistakes, answerExact m.question) :
    (answerExact
        (generateQuestion config mistakes now rReview rPick r0 r1 r2 newId) ∧
      ((generateQuestion config mistakes now rReview rPick r0 r1 r2
          newId).isReview = false →
        (generateQuestion config mistakes now rReview rPick r0 r1 r2
          newId).operator ∈ validOperators config.operators)) ∧
    (answerExact (generateQuestionV1 maxNumber ops1 mistakes now rReview rPick
        r0 r1 r2 newId) ∧
      ((generateQuestionV1 maxNumber ops1 mistakes now rReview rPick r0 r1 r2
          newId).isReview = false →
        (generateQuestionV1 maxNumber ops1 mistakes now rReview rPick r0 r1 r2
          newId).operator ∈ validOperators ops1)) := by
  constructor
  · have hgen : generateQuestion config mistakes now rReview rPick r0 r1 r2
        newId =
        if 0 < (mistakes.filter fun m =>
            decide (m.nextReviewTime ≤ now)).length ∧ rReview < 3 / 10 then
          pickReviewQuestion mistakes now rPick newId
        else generateQuestionCore config r0 r1 r2 newId := rfl
    by_cases hcond : 0 < (mistakes.filter fun m =>
        decide (m.nextReviewTime ≤ now)).length ∧ rReview < 3 / 10
    · rw [hgen, if_pos hcond]
      obtain ⟨m, hm, heq⟩ := pickReviewQuestion_spec mistakes now rPick newId
        hp0 hp1 hcond.1
      rw [heq]
      exact ⟨answerExact_reissue m.question newId (hpool m hm),
        fun hfalse => absurd hfalse (by simp)⟩
    · rw [hgen, if_neg hcond]
      refine ⟨?_, fun _ =>
        generateQuestionCore_operator_mem config r0 r1 r2 newId h00 h01⟩
      rw [generateQuestionCore_eq]
      exact answerExact_synthesize config _ r1 r2 newId h10
  · have hgen : generateQuestionV1 maxNumber ops1 mistakes now rReview rPick
        r0 r1 r2 newId =
        if 0 < (mistakes.filter fun m =>
            decide (m.nextReviewTime ≤ now)).length ∧ rReview < 4 / 10 then
          pickReviewQuestion mistakes now rPick newId
        else generateQuestionV1Core maxNumber ops1 r0 r1 r2 newId := rfl
    by_cases hcond : 0 < (mistakes.filter fun m =>
        decide (m.nextReviewTime ≤ now)).length ∧ rReview < 4 / 10
    · rw [hgen, if_pos hcond]
      obtain ⟨m, hm, heq⟩ := pickReviewQuestion_spec mistakes now rPick newId
        hp0 hp1 hcond.1
      rw [heq]
      exact ⟨answerExact_reissue m.question newId (hpool m hm),
        fun hfalse => absurd hfalse (by simp)⟩
    · rw [hgen, if_neg hcond]
      refine ⟨?_, fun _ =>
        generateQuestionV1Core_operator_mem maxNumber ops1 r0 r1 r2 newId
          h00 h01⟩
      rw [generateQuestionV1Core_eq]
      exact answerExact_synthesizeV1 maxNumber _ r1 r2 newId h20

/-- Witness for C5 with an empty mistake pool, the stage-1 config, draws
0 ≤ r < 1 and the legacy generator at `maxNumber = 100`. -/
theorem C5_witness :
    answerExact (generateQuestion (getStageConfig 1) [] 0 0 0 0 0 0 "x") ∧
    answerExact (generateQuestionV1 100 [Operator.div] [] 0 0 0 0 0 0 "x") := by
  have h := C5_generated_answers_exact (getStageConfig 1) [] 0 0 0 0 0 0 "x"
    100 [Operator.div] (by norm_num) (by norm_num) (by norm_num) (by norm_num)
    (by norm_num) (by norm_num) (by intro m hm; simp at hm)
  exact ⟨h.1.1, h.2.1⟩

/-! ### Subtraction-branch bounds -/

lemma sub_branch_bounds (mn mx : ℤ) (r1 r2 : ℚ) (h5 : 5 ≤ mn)
    (hlt : mn < mx) (h10 : 0 ≤ r1) (h20 : 0 ≤ r2) (h21 : r2 < 1) :
    ⌊r2 * (((⌊r1 * ((mx : ℚ) - (mn : ℚ))⌋ + mn : ℤ) : ℚ) - 5)⌋ + 5 ≤
      ⌊r1 * ((mx : ℚ) - (mn : ℚ))⌋ + mn ∧
    0 ≤ (⌊r1 * ((mx : ℚ) - (mn : ℚ))⌋ + mn) -
      (⌊r2 * (((⌊r1 * ((mx : ℚ) - (mn : ℚ))⌋ + mn : ℤ) : ℚ) - 5)⌋ + 5) := by
  have hc1 : (mx : ℚ) - (mn : ℚ) = ((mx - mn : ℤ) : ℚ) := by push_cast; ring
  have hf1 : 0 ≤ ⌊r1 * ((mx : ℚ) - (mn : ℚ))⌋ := by
    rw [hc1]
    exact floor_mul_intCast_nonneg r1 _ h10 (by omega)
  have hc2 : ((⌊r1 * ((mx : ℚ) - (mn : ℚ))⌋ + mn : ℤ) : ℚ) - 5 =
      ((⌊r1 * ((mx : ℚ) - (mn : ℚ))⌋ + mn - 5 : ℤ) : ℚ) := by push_cast; ring
  have hf2nn : 0 ≤ ⌊r2 * (((⌊r1 * ((mx : ℚ) - (mn : ℚ))⌋ + mn : ℤ) : ℚ) - 5)⌋ := by
    rw [hc2]
    exact floor_mul_intCast_nonneg r2 _ h20 (by omega)
  have hf2le : ⌊r2 * (((⌊r1 * ((mx : ℚ) - (mn : ℚ))⌋ + mn : ℤ) : ℚ) - 5)⌋ ≤
      ⌊r1 * ((mx : ℚ) - (mn : ℚ))⌋ + mn - 5 := by
    rw [hc2]
    exact floor_mul_intCast_le r2 _ h21 (by omega)
  omega

lemma subV1_branch_bounds (mx : ℤ) (r1 r2 : ℚ) (h2 : 2 ≤ mx)
    (h10 : 0 ≤ r1) (h20 : 0 ≤ r2) (h21 : r2 < 1) :
    ⌊r2 * ((⌊r1 * ((mx : ℚ) - 1)⌋ + 1 : ℤ) : ℚ)⌋ ≤
      ⌊r1 * ((mx : ℚ) - 1)⌋ + 1 ∧
    0 ≤ (⌊r1 * ((mx : ℚ) - 1)⌋ + 1) -
      ⌊r2 * ((⌊r1 * ((mx : ℚ) - 1)⌋ + 1 : ℤ) : ℚ)⌋ := by
  have hc1 : (mx : ℚ) - 1 = ((mx - 1 : ℤ) : ℚ) := by push_cast; ring
  have hf1 : 0 ≤ ⌊r1 * ((mx : ℚ) - 1)⌋ := by
    rw [hc1]
    exact floor_mul_intCast_nonneg r1 _ h10 (by omega)
  have hf2nn : 0 ≤ ⌊r2 * ((⌊r1 * ((mx : ℚ) - 1)⌋ + 1 : ℤ) : ℚ)⌋ :=
    floor_mul_intCast_nonneg r2 _ h20 (by omega)
  have hf2le : ⌊r2 * ((⌊r1 * ((mx : ℚ) - 1)⌋ + 1 : ℤ) : ℚ)⌋ ≤
      ⌊r1 * ((mx : ℚ) - 1)⌋ + 1 :=
    floor_mul_intCast_le r2 _ h21 (by omega)
  omega

/-- C6 counterexample: the updated generator's subtraction branch draws
`operand2` from `[5, operand1)`; with the legacy-style config
`{min 1, max 100}` and draws `r1 = 0`, `r2 = 1/2` it produces
`operand1 = 1 < operand2 = 3` and the negative answer `-2`. -/
theorem C6_counterexample :
    (generateQuestionCore ⟨1, 100, [Operator.sub]⟩ 0 0 (1/2) "x").operator =
      Operator.sub ∧
    (generateQuestionCore ⟨1, 100, [Operator.sub]⟩ 0 0 (1/2) "x").num1 <
      (generateQuestionCore ⟨1, 100, [Operator.sub]⟩ 0 0 (1/2) "x").num2 ∧
    (generateQuestionCore ⟨1, 100, [Operator.sub]⟩ 0 0 (1/2) "x").answer < 0 := by
  have hc : generateQuestionCore ⟨1, 100, [Operator.sub]⟩ 0 0 (1/2) "x" =
      synthesize ⟨1, 100, [Operator.sub]⟩ Operator.sub 0 (1/2) "x" := by
    rw [generateQuestionCore_eq]
    norm_num [validOperators, List.getD]
  rw [hc]
  refine ⟨rfl, ?_, ?_⟩
  · show (⌊(0 : ℚ) * ((100 : ℚ) - (1 : ℚ))⌋ + 1 : ℤ) <
      ⌊(1/2 : ℚ) * (((⌊(0 : ℚ) * ((100 : ℚ) - (1 : ℚ))⌋ + 1 : ℤ) : ℚ) - 5)⌋ + 5
    norm_num
  · show (⌊(0 : ℚ) * ((100 : ℚ) - (1 : ℚ))⌋ + 1 : ℤ) -
      (⌊(1/2 : ℚ) * (((⌊(0 : ℚ) * ((100 : ℚ) - (1 : ℚ))⌋ + 1 : ℤ) : ℚ) - 5)⌋ + 5) < 0
    norm_num

/-- C6 amended: the subtraction invariant `operand1 ≥ operand2` (and a
non-negative answer) does hold for the legacy generator whenever
`maxNumber ≥ 2`, and for the updated generator whenever the config
satisfies `5 ≤ min < max` — which every stage config supplied by
`getStageConfig` does — but not for arbitrary configs. -/
theorem C6_amended_subtraction_nonneg :
    (∀ (maxNumber : Int) (operators : List Operator) (r0 r1 r2 : ℚ)
        (newId : String), 2 ≤ maxNumber → 0 ≤ r1 → 0 ≤ r2 → r2 < 1 →
      (generateQuestionV1Core maxNumber operators r0 r1 r2 newId).operator =
        Operator.sub →
      (generateQuestionV1Core maxNumber operators r0 r1 r2 newId).num2 ≤
        (generateQuestionV1Core maxNumber operators r0 r1 r2 newId).num1 ∧
      0 ≤ (generateQuestionV1Core maxNumber operators r0 r1 r2 newId).answer) ∧
    (∀ (config : StageConfig) (r0 r1 r2 : ℚ) (newId : String),
      5 ≤ config.min → config.min < config.max → 0 ≤ r1 → 0 ≤ r2 → r2 < 1 →
      (generateQuestionCore config r0 r1 r2 newId).operator = Operator.sub →
      (generateQuestionCore config r0 r1 r2 newId).num2 ≤
        (generateQuestionCore config r0 r1 r2 newId).num1 ∧
      0 ≤ (generateQuestionCore config r0 r1 r2 newId).answer) ∧
    (∀ stage : Nat, 5 ≤ (getStageConfig stage).min ∧
      (getStageConfig stage).min < (getStageConfig stage).max) := by
  refine ⟨?_, ?_, ?_⟩
  · intro maxNumber operators r0 r1 r2 newId h2 h10 h20 h21 hsub
    rw [generateQuestionV1Core_eq] at hsub ⊢
    rw [synthesizeV1_operator] at hsub
    rw [hsub]
    exact ⟨(subV1_branch_bounds maxNumber r1 r2 h2 h10 h20 h21).1,
      (subV1_branch_bounds maxNumber r1 r2 h2 h10 h20 h21).2⟩
  · intro config r0 r1 r2 newId h5 hlt h10 h20 h21 hsub
    rw [generateQuestionCore_eq] at hsub ⊢
    rw [synthesize_operator] at hsub
    rw [hsub]
    exact ⟨(sub_branch_bounds config.min config.max r1 r2 h5 hlt h10 h20 h21).1,
      (sub_branch_bounds config.min config.max r1 r2 h5 hlt h10 h20 h21).2⟩
  · intro stage
    unfold getStageConfig
    split_ifs <;> exact ⟨by norm_num, by norm_num⟩

/-- Witness for C6 (amended) at the stage-style config
`{min 10, max 200, [sub]}` and at the legacy generator with
`maxNumber = 100`. -/
theorem C6_witness :
    (generateQuestionCore ⟨10, 200, [Operator.sub]⟩ 0 0 (1/2) "x").num2 ≤
      (generateQuestionCore ⟨10, 200, [Operator.sub]⟩ 0 0 (1/2) "x").num1 ∧
    0 ≤ (generateQuestionCore ⟨10, 200, [Operator.sub]⟩ 0 0 (1/2) "x").answer ∧
    (generateQuestionV1Core 100 [Operator.sub] 0 0 (1/2) "x").num2 ≤
      (generateQuestionV1Core 100 [Operator.sub] 0 0 (1/2) "x").num1 := by
  have hop2 : (generateQuestionCore ⟨10, 200, [Operator.sub]⟩ 0 0 (1/2)
      "x").operator = Operator.sub := by
    rw [generateQuestionCore_eq, synthesize_operator]
    norm_num [validOperators, List.getD]
  have hop1 : (generateQuestionV1Core 100 [Operator.sub] 0 0 (1/2)
      "x").operator = Operator.sub := by
    rw [generateQuestionV1Core_eq, synthesizeV1_operator]
    norm_num [validOperators, List.getD]
  have h2 := C6_amended_subtraction_nonneg.2.1 ⟨10, 200, [Operator.sub]⟩ 0 0
    (1/2) "x" (by norm_num) (by norm_num) (by norm_num) (by norm_num)
    (by norm_num) hop2
  have h1 := C6_amended_subtraction_nonneg.1 100 [Operator.sub] 0 0 (1/2) "x"
    (by norm_num) (by norm_num) (by norm_num) (by norm_num) hop1
  exact ⟨h2.1, h2.2, h1.1⟩

/-- C7 counterexample: the updated generator has no fallback for
degenerate bounds.  With the degenerate config `{min 10, max 5, [add]}`
(`max ≤ min`) and draws `r1 = 0`, `r2 = 99/100`, the addition branch
returns `operand2 = -5`: a negative operand, with no safe-range
fallback applied. -/
theorem C7_counterexample :
    ((⟨10, 5, [Operator.add]⟩ : StageConfig).max ≤
      (⟨10, 5, [Operator.add]⟩ : StageConfig).min) ∧
    (generateQuestionCore ⟨10, 5, [Operator.add]⟩ 0 0 (99/100) "x").num2 < 0 := by
  refine ⟨by norm_num, ?_⟩
  have hc : generateQuestionCore ⟨10, 5, [Operator.add]⟩ 0 0 (99/100) "x" =
      synthesize ⟨10, 5, [Operator.add]⟩ Operator.add 0 (99/100) "x" := by
    rw [generateQuestionCore_eq]
    norm_num [validOperators, List.getD]
  rw [hc]
  show ⌊(99/100 : ℚ) * ((5 : ℚ) -
      ((⌊(0 : ℚ) * ((7 : ℚ) / 10 * (5 : ℚ) - (10 : ℚ))⌋ + 10 : ℤ) : ℚ) - 10)⌋ +
      10 < 0
  norm_num

/-- C7 amended: the generator is a total function with a defensive
fallback only for an empty operator set (it then chooses addition); it
has no fallback for degenerate numeric bounds. -/
theorem C7_amended_operator_fallback (config : StageConfig) (r0 r1 r2 : ℚ)
    (newId : String) (hops : config.operators = []) :
    (generateQuestionCore config r0 r1 r2 newId).operator = Operator.add := by
  have hsingle : ∀ i : Nat,
      ([Operator.add] : List Operator).getD i Operator.add = Operator.add := by
    intro i
    cases i <;> rfl
  rw [generateQuestionCore_eq, synthesize_operator, hops]
  exact hsingle _

/-- Witness for C7 (amended) at a config with an empty operator set. -/
theorem C7_witness :
    (generateQuestionCore ⟨0, 0, []⟩ (1/3) 0 0 "x").operator = Operator.add :=
  C7_amended_operator_fallback ⟨0, 0, []⟩ (1/3) 0 0 "x" rfl

end NumberGame
